import Mathlib

/-!
Verification of the OpenSet core query-execution substrate against its
specification.  The development shallowly embeds the per-partition
cooperative scheduler (`src/asyncloop.cpp`) and the query-coordination
layer (`src/rpc_query.cpp`): stateful C++ is rendered as explicit state
passing, virtual calls into Open-Loop subclasses are abstract behaviour
functions, and side effects (replies, deletes, notifications) are
recorded as event traces.
-/

/- ======================================================================
   String helpers.

   `String` byte-position primitives do not reduce in the kernel, so the
   small amount of string processing the code does (`substr`, `trim`,
   `find`, `split`) is embedded over the character list of a `String`.
   ====================================================================== -/

/-- Helper `beginsWith needle hay`: `needle` is a leading run of `hay`. -/
def beginsWith : List Char → List Char → Bool
  | [], _ => true
  | _ :: _, [] => false
  | a :: as, b :: bs => a == b && beginsWith as bs

/-- Helper `occursIn needle hay`: `needle` occurs contiguously inside `hay`;
this is the semantics of C++ `std::string::find(needle) != npos`. -/
def occursIn (needle hay : List Char) : Bool :=
  match hay with
  | [] => needle.isEmpty
  | _ :: t => beginsWith needle hay || occursIn needle t

/-- C++ `hay.find(needle) != std::string::npos`. -/
def containsSub (hay needle : String) : Bool :=
  occursIn needle.toList hay.toList

/-- C++ `s.substr(n)`. -/
def strDrop (s : String) (n : Nat) : String := ⟨s.toList.drop n⟩

/-- C++ `trim(s)` from `strtools`: strip whitespace from both ends. -/
def strTrim (s : String) : String :=
  ⟨((s.toList.dropWhile Char.isWhitespace).reverse.dropWhile Char.isWhitespace).reverse⟩

/-- C++ `s.length()`. -/
def strLen (s : String) : Nat := s.toList.length

/-- C++ `split(s, ',')` from `strtools`. -/
def splitOnComma (s : String) : List String :=
  (s.toList.splitOn ',').map (fun l => ⟨l⟩)

/- ======================================================================
   Part 1 — the per-partition cooperative scheduler, `src/asyncloop.cpp`.

   An `OpenLoop` is the data of one cooperative work unit (the fields of
   the C++ `OpenLoop` base object that `asyncloop.cpp` reads or writes).
   The virtual methods `checkCondition`, `checkTimer`, `prepare` and
   `run` live in subclasses outside this repository slice, so they are
   abstracted as a `Behavior` record; `prepare` and `run` may spawn
   children onto the same partition loop (the C++ does this through
   `queueCell`), which the embedding returns as explicit lists.
   ====================================================================== -/

/-- The source's `oloopState_e` (`prepared` start state folded into
`running` exactly as the spec's §3 state set describes). -/
inductive OloopState
  | running
  | done
deriving DecidableEq, Repr

/-- The scheduler-visible fields of one C++ `OpenLoop`.  `oid` models
pointer identity so that traces can name a loop. -/
structure OpenLoop where
  oid : Nat
  state : OloopState
  runAt : Int
  prepared : Bool
  owningTable : String
  assignedLoop : Option Nat
deriving DecidableEq, Repr

/-- Abstract behaviour of the virtual `OpenLoop` methods.  `prepareFn`
and `runFn` return the mutated loop plus any children the call submitted
to the same partition loop via `queueCell`; `runFn` additionally returns
the C++ `run()` boolean (request for immediate re-entry). -/
structure Behavior where
  condFn : OpenLoop → Bool
  timerFn : OpenLoop → Int → Bool
  prepareFn : OpenLoop → OpenLoop × List OpenLoop
  runFn : OpenLoop → OpenLoop × Bool × List OpenLoop

/-- Side effects of scheduler operations, recorded as a trace. -/
inductive LoopEvent
  | partitionRemoved (oid : Nat)
  | deleted (oid : Nat)
  | notify (workerId : Nat)
deriving DecidableEq, Repr

/-- Worker bookkeeping touched by `queueCell`
(`asyncPool->workerInfo[worker]`). -/
structure WorkerInfo where
  triggered : Bool
deriving DecidableEq, Repr

/-- The fields of C++ `AsyncLoop` that its member functions read or
write (constructor at `asyncloop.cpp:6`). -/
structure AsyncLoopSt where
  queueSize : Nat
  runTime : Int
  partition : Nat
  worker : Nat
  queued : List OpenLoop
  active : List OpenLoop
deriving Repr

/-- Source `OpenLoop::assignLoop(this)`: point the cell back at its partition
loop. -/
def assignLoop (st : AsyncLoopSt) (w : OpenLoop) : OpenLoop :=
  { w with assignedLoop := some st.partition }

/-- Source `AsyncLoop::queueCell` (`asyncloop.cpp:42`): under `pendLock` assign
the loop, append to `queued`, bump `queueSize`; then outside the lock
set the owning worker's `triggered` flag and notify its condvar (the
notification is the `notify` trace event). -/
def queueCell (st : AsyncLoopSt) (pool : List WorkerInfo) (w : OpenLoop) :
    AsyncLoopSt × List WorkerInfo × List LoopEvent :=
  let st' := { st with
    queued := st.queued ++ [assignLoop st w],
    queueSize := st.queueSize + 1 }
  let pool' := pool.set st.worker ⟨true⟩
  (st', pool', [LoopEvent.notify st.worker])

/-- One arm of `AsyncLoop::purgeByTable` (`asyncloop.cpp:57`): walk a
sequence, keep loops of other tables, delete loops of the named table. -/
def purgeWalk (name : String) : List OpenLoop → List OpenLoop × List LoopEvent
  | [] => ([], [])
  | a :: rest =>
    let (kept, evs) := purgeWalk name rest
    if a.owningTable ≠ name then (a :: kept, evs)
    else (kept, LoopEvent.deleted a.oid :: evs)

/-- Source `AsyncLoop::purgeByTable` (`asyncloop.cpp:57`): under `pendLock`
filter `active` then `queued`, deleting loops owned by the dropped
table.  `queueSize` is left untouched, as in the source. -/
def purgeByTable (st : AsyncLoopSt) (tableName : String) :
    AsyncLoopSt × List LoopEvent :=
  let (newActive, evA) := purgeWalk tableName st.active
  let (newQueued, evQ) := purgeWalk tableName st.queued
  ({ st with active := newActive, queued := newQueued }, evA ++ evQ)

/-- Source `AsyncLoop::release` (`asyncloop.cpp:20`): pop each queued and
active loop from the back, calling `partitionRemoved` before deleting
it.  (Contrast with `purgeByTable`, which never emits
`partitionRemoved`.) -/
def releaseEvents (st : AsyncLoopSt) : List LoopEvent :=
  (st.queued.reverse.foldr
    (fun w acc => LoopEvent.partitionRemoved w.oid :: LoopEvent.deleted w.oid :: acc) [])
  ++ (st.active.reverse.foldr
    (fun w acc => LoopEvent.partitionRemoved w.oid :: LoopEvent.deleted w.oid :: acc) [])

/-- Log entry for one `w->run()` invocation during a tick: the now that
was sampled for it and the loop's state and `runAt` right after the
call. -/
structure RunEntry where
  oid : Nat
  now : Int
  postState : OloopState
  postRunAt : Int
deriving DecidableEq, Repr

/-- Accumulator for the tick iteration of `AsyncLoop::run`. -/
structure TickAcc where
  idx : Nat
  runCount : Nat
  nextRun : Int
  rerun : List OpenLoop
  spawned : List OpenLoop
  considered : List Nat
  ranLog : List RunEntry
deriving Repr

/-- The body of the `for (auto w : active)` loop of `AsyncLoop::run`
(`asyncloop.cpp:118`–`156`):
sample `now`; if the gate `checkCondition && checkTimer && running`
passes, run `prepare` once (deleting the loop if `prepare` finished it)
then `run`, counting re-entry requests and folding a future `runAt`
into `nextRun`; finally delete finished loops and keep the rest for the
next tick. -/
def tickStep (beh : Behavior) (nows : Nat → Int) (acc : TickAcc) (w : OpenLoop) :
    TickAcc :=
  let now := nows acc.idx
  let acc0 := { acc with idx := acc.idx + 1, considered := acc.considered ++ [w.oid] }
  if beh.condFn w && beh.timerFn w now && (w.state == OloopState.running) then
    let prep := if !w.prepared then
        let (p, sp) := beh.prepareFn w
        ({ p with prepared := true }, sp)
      else (w, [])
    let w1 := prep.1
    let acc1 := { acc0 with spawned := acc0.spawned ++ prep.2 }
    if w1.state == OloopState.done then
      acc1
    else
      let res := beh.runFn w1
      let w2 := res.1
      let acc2 := { acc1 with
        spawned := acc1.spawned ++ res.2.2,
        runCount := acc1.runCount + (if res.2.1 then 1 else 0) }
      let nr := if w2.state = OloopState.running ∧ w2.runAt > now ∧
                   (acc2.nextRun = -1 ∨ w2.runAt < acc2.nextRun)
                then w2.runAt else acc2.nextRun
      let acc3 := { acc2 with
        nextRun := nr,
        ranLog := acc2.ranLog ++ [⟨w2.oid, now, w2.state, w2.runAt⟩] }
      if w2.state == OloopState.done then acc3
      else { acc3 with rerun := acc3.rerun ++ [w2] }
  else
    if w.state == OloopState.done then acc0
    else { acc0 with rerun := acc0.rerun ++ [w] }

/-- Result of one scheduler tick: the new loop state, the `nextRun`
out-parameter, the boolean return of `run`, plus the trace of loop ids
that the tick considered and the log of executed `run()` calls. -/
structure TickResult where
  st : AsyncLoopSt
  nextRun : Int
  ret : Bool
  considered : List Nat
  ranLog : List RunEntry
deriving Repr

/-- Source `AsyncLoop::scheduleQueued` (`asyncloop.cpp:88`): under `pendLock`
move every queued loop to the tail of `active` and clear `queued`,
adjusting `queueSize`. -/
def scheduleQueued (st : AsyncLoopSt) : AsyncLoopSt :=
  { st with
    queueSize := st.queueSize - st.queued.length,
    active := st.active ++ st.queued,
    queued := [] }

/-- Source `AsyncLoop::run` (`asyncloop.cpp:100`): admit queued work when the
size counter is non-zero, return `false` on an empty `active`,
otherwise iterate the admitted snapshot with `tickStep` and install the
`rerun` list as the new `active`.  Children spawned during the tick
(returned by `prepareFn`/`runFn`) are what `queueCell` appended to
`queued` while the tick ran. -/
def runTick (beh : Behavior) (nows : Nat → Int) (st : AsyncLoopSt)
    (nextRun : Int) : TickResult :=
  let st1 := if st.queueSize ≠ 0 then scheduleQueued st else st
  if st1.active.isEmpty then
    ⟨st1, nextRun, false, [], []⟩
  else
    let acc := st1.active.foldl (tickStep beh nows)
      ⟨0, 0, nextRun, [], [], [], []⟩
    ⟨{ st1 with
        active := acc.rerun,
        queued := st1.queued ++ acc.spawned,
        queueSize := st1.queueSize + acc.spawned.length },
      acc.nextRun, acc.runCount ≠ 0, acc.considered, acc.ranLog⟩

/-- Reading of the spec sentence behind claim C3 (spec §8 invariant 4):
the minimum `runAt` over the loops of a sequence that are still in
state `running`, `-1` when there are none, `-1` treated as unset. -/
def stillRunningMinRunAt (loops : List OpenLoop) : Int :=
  loops.foldl
    (fun m w =>
      if w.state = OloopState.running ∧ (m = -1 ∨ w.runAt < m) then w.runAt else m)
    (-1)

/-- The `nextRun` update that `AsyncLoop::run` applies after one
`w->run()` call, as a function of the run log entry
(`asyncloop.cpp:147`–`149`). -/
def minUpdate (nextRun : Int) (e : RunEntry) : Int :=
  if e.postState = OloopState.running ∧ e.postRunAt > e.now ∧
     (nextRun = -1 ∨ e.postRunAt < nextRun)
  then e.postRunAt else nextRun

/- ======================================================================
   Part 2 — error taxonomy and reply events, `src/rpc_query.cpp`.

   `message->reply` and `RpcError` are consumed interfaces (the HTTP
   front end); a call to either is recorded as a `Reply` event.
   `RpcError` is modelled from the spec (§7): it sends one 4xx JSON
   reply carrying the given error class and code.
   ====================================================================== -/

/-- The `openset::errors::errorClass_e` values used by the query path. -/
inductive ErrClass
  | parse
  | query
  | config
  | internode
deriving DecidableEq, Repr

/-- The `openset::errors::errorCode_e` values used by the query path. -/
inductive ErrCode
  | syntax_error
  | general_error
  | general_config_error
  | route_error
  | internode_error
deriving DecidableEq, Repr

/-- One reply sent on the client message: a structured `RpcError`, a
4xx with a relayed JSON body, or a 200 success. -/
inductive Reply
  | errorReply (cls : ErrClass) (code : ErrCode)
  | badRequest (body : String)
  | okReply
deriving DecidableEq, Repr

/-- HTTP status of a peer response: `success_ok` or anything else. -/
inductive HStatus
  | ok
  | other
deriving DecidableEq, Repr

/- ======================================================================
   Part 3 — fork-node Shuttle completion callbacks (claim C1).

   `response_s<CellQueryResult_s>.data.error` is an `openset::errors`
   value; `error.inError()` is `isSome` here and `getErrorJSON` is the
   carried string.  Each callback is embedded as a pure function from
   the collected responses to the trace of its effects: replies sent,
   worker-local ResultSets deleted, and `release_cb` invocations.
   ====================================================================== -/

/-- The error slot of one partial response delivered to a Shuttle. -/
structure CellQueryResult where
  error : Option String
deriving DecidableEq, Repr

/-- Effect trace of one Shuttle completion callback. -/
structure CallbackOutcome where
  replies : List Reply
  freedResultSets : Nat
  released : Nat
deriving DecidableEq, Repr

/-- First response whose embedded error is set, as the C++ for-loops
find it (arrival order). -/
def firstError (responses : List CellQueryResult) : Option CellQueryResult :=
  responses.find? (fun r => r.error.isSome)

/-- The `event` endpoint's ShuttleLambda callback
(`rpc_query.cpp:608`–`657`): on the first embedded error reply 4xx with
its JSON, delete every worker ResultSet, call `release_cb`, return;
otherwise merge, reply 200, delete the ResultSets and release. -/
def eventCallback (nResultSets : Nat) (responses : List CellQueryResult) :
    CallbackOutcome :=
  match firstError responses with
  | some r => ⟨[Reply.badRequest (r.error.getD "")], nResultSets, 1⟩
  | none => ⟨[Reply.okReply], nResultSets, 1⟩

/-- The `segment` endpoint's ShuttleLambda callback
(`rpc_query.cpp:873`–`921`).  On the error path
(`rpc_query.cpp:882`–`894`) it replies 4xx and deletes the ResultSets
but returns without invoking `release_cb`. -/
def segmentCallback (nResultSets : Nat) (responses : List CellQueryResult) :
    CallbackOutcome :=
  match firstError responses with
  | some r => ⟨[Reply.badRequest (r.error.getD "")], nResultSets, 0⟩
  | none => ⟨[Reply.okReply], nResultSets, 1⟩

/-- The `column` endpoint's ShuttleLambda callback
(`rpc_query.cpp:1289`–`1333`): same shape as the `event` callback. -/
def columnCallback (nResultSets : Nat) (responses : List CellQueryResult) :
    CallbackOutcome :=
  match firstError responses with
  | some r => ⟨[Reply.badRequest (r.error.getD "")], nResultSets, 1⟩
  | none => ⟨[Reply.okReply], nResultSets, 1⟩

/- ======================================================================
   Part 4 — the originator's response collection in `forkQuery`
   (`rpc_query.cpp:67`–`158`, claim C2).

   The JSON codec and the wire-format test are consumed interfaces, so
   `isInternode` (`ResultMuxDemux::isInternode`) and `hasErrorPath`
   (parse the body and find an `/error` node) are abstract parameters.
   A response models one `DataBlock` from `dispatchCluster`: possibly
   null data plus an HTTP status.
   ====================================================================== -/

/-- One peer response as `forkQuery` sees it. -/
structure FResponse where
  data : Option String
  code : HStatus
deriving DecidableEq, Repr

/-- Consumed-interface predicates of the fork collection loop. -/
structure ForkEnv where
  isInternode : FResponse → Bool
  hasErrorPath : String → Bool

/-- C++ `!r.data || !r.length`. -/
def isEmptyResp (r : FResponse) : Bool :=
  match r.data with
  | none => true
  | some d => strLen d == 0

/-- The character `{` (written by code point to keep it out of
literals). -/
def openBrace : Char := Char.ofNat 123

/-- C++ `r.data[0] == '\x7b'` on a non-empty body. -/
def startsWithBrace (d : String) : Bool := d.toList.head? == some openBrace

/-- Loop state of `forkQuery`'s response walk: ResultSets collected so
far from internode bodies, the `result.routeError` flag, replies sent
so far. -/
structure ForkAcc where
  rsCount : Nat
  routeError : Bool
  replies : List Reply
deriving DecidableEq, Repr

/-- Final effect of `forkQuery`'s collection phase.  `aborted` is the
`return nullptr` path (responses released and the ResultSets collected
so far deleted, `rpc_query.cpp:126`–`131` and `150`–`156`);
`completed` reaches the merge and returns the result JSON, releasing
the responses and deleting all collected ResultSets
(`rpc_query.cpp:167`–`171`), after which the caller replies 200. -/
inductive ForkOutcome
  | aborted (replies : List Reply) (freedResultSets : Nat)
  | completed (replies : List Reply) (allocatedResultSets freedResultSets : Nat)
deriving DecidableEq, Repr

/-- One iteration of the `for (auto &r : result.responses)` loop of
`forkQuery` (`rpc_query.cpp:97`–`158`): collect an internode body;
answer an empty reply with an `internode_error` `RpcError` and keep
going; on a non-OK body try to relay an embedded JSON error (aborting)
or set `routeError`; finally abort with a `config/route_error` reply
when the flag is up. -/
def forkStep (env : ForkEnv) (acc : ForkAcc) (r : FResponse) :
    Except ForkOutcome ForkAcc :=
  let step :=
    if env.isInternode r then
      Except.ok { acc with rsCount := acc.rsCount + 1 }
    else if isEmptyResp r then
      Except.ok { acc with replies :=
        acc.replies ++ [Reply.errorReply ErrClass.internode ErrCode.internode_error] }
    else if r.code ≠ HStatus.ok then
      match r.data with
      | some d =>
        if startsWithBrace d then
          if env.hasErrorPath d then
            Except.error (ForkOutcome.aborted
              (acc.replies ++ [Reply.badRequest d]) acc.rsCount)
          else Except.ok { acc with routeError := true }
        else Except.ok { acc with routeError := true }
      | none => Except.ok { acc with routeError := true }
    else Except.ok acc
  match step with
  | Except.error o => Except.error o
  | Except.ok a =>
    if a.routeError then
      Except.error (ForkOutcome.aborted
        (a.replies ++ [Reply.errorReply ErrClass.config ErrCode.route_error]) a.rsCount)
    else Except.ok a

/-- The full response walk of `forkQuery`. -/
def forkCollectGo (env : ForkEnv) : List FResponse → ForkAcc → ForkOutcome
  | [], acc => ForkOutcome.completed acc.replies acc.rsCount acc.rsCount
  | r :: rest, acc =>
    match forkStep env acc r with
    | Except.error o => o
    | Except.ok a => forkCollectGo env rest a

/-- The collection phase of `forkQuery` started on fresh state. -/
def forkCollect (env : ForkEnv) (rs : List FResponse) : ForkOutcome :=
  forkCollectGo env rs ⟨0, false, []⟩

/-- A response that drives `forkQuery` onto an abort path: not an
internode body, not empty, status not OK. -/
def badResp (env : ForkEnv) (r : FResponse) : Bool :=
  !env.isInternode r && !isEmptyResp r &&
    (match r.code with | HStatus.ok => false | HStatus.other => true)

/-- The single reply `forkQuery` sends when it aborts at a bad
response: the relayed 4xx when the body parses with an `/error` node,
the retriable `config/route_error` otherwise. -/
def abortReply (env : ForkEnv) (r : FResponse) : Reply :=
  match r.data with
  | some d =>
    if startsWithBrace d && env.hasErrorPath d then Reply.badRequest d
    else Reply.errorReply ErrClass.config ErrCode.route_error
  | none => Reply.errorReply ErrClass.config ErrCode.route_error

/- ======================================================================
   Part 5 — the `column` endpoint's filter validation
   (`rpc_query.cpp:936`–`1230`, claim C5).

   The embedding starts where the column has been resolved (its type is
   an input); it covers the filter-mode extraction from the query
   string, the regex-compile guard (`rxOk` abstracts whether
   `std::regex` throws), the value checks, the segments check, and the
   mode/type compatibility switch.  The cvar type coercion at
   `rpc_query.cpp:1135`–`1155` does not alter control flow and is not
   represented; a default-constructed cvar (the `rx` branch sets no
   `filterLow`) is taken to stringify empty, which no theorem below
   depends on.
   ====================================================================== -/

/-- The source's `columnTypes_e`. -/
inductive ColumnType
  | intColumn
  | doubleColumn
  | boolColumn
  | textColumn
  | freeColumn
deriving DecidableEq, Repr

/-- The source's `OpenLoopColumn::ColumnQueryMode_e`. -/
inductive ColumnQueryMode
  | all
  | rx
  | sub
  | gt
  | gte
  | lt
  | lte
  | eq
  | between
deriving DecidableEq, Repr

/-- Source `message->isParam(name)`. -/
def isParam (params : List (String × String)) (name : String) : Bool :=
  (params.find? (fun p => p.1 == name)).isSome

/-- Source `message->getParamString(name)` with the empty default. -/
def getParamString (params : List (String × String)) (name : String) : String :=
  match params.find? (fun p => p.1 == name) with
  | some p => p.2
  | none => ""

/-- The filter fields of `ColumnQueryConfig_s` that the validation
reads; `none` models a cvar the extraction left default-constructed. -/
structure ColumnQueryInfo where
  mode : ColumnQueryMode
  filterLow : Option String
  filterHigh : Option String
deriving DecidableEq, Repr

/-- The `gt`/`gte`/`lt`/`lte`/`eq`/`between`/`rx`/`sub` parameter chain
of `RpcQuery::column` (`rpc_query.cpp:1004`–`1074`), in source order;
no match means mode `all`.  The `rx` branch compiles the regex and sets
no filter value. -/
def columnModeOf (params : List (String × String)) : ColumnQueryInfo :=
  if isParam params "gt" then ⟨ColumnQueryMode.gt, some (getParamString params "gt"), none⟩
  else if isParam params "gte" then ⟨ColumnQueryMode.gte, some (getParamString params "gte"), none⟩
  else if isParam params "lt" then ⟨ColumnQueryMode.lt, some (getParamString params "lt"), none⟩
  else if isParam params "lte" then ⟨ColumnQueryMode.lte, some (getParamString params "lte"), none⟩
  else if isParam params "eq" then ⟨ColumnQueryMode.eq, some (getParamString params "eq"), none⟩
  else if isParam params "between" then
    ⟨ColumnQueryMode.between, some (getParamString params "between"), some (getParamString params "and")⟩
  else if isParam params "rx" then ⟨ColumnQueryMode.rx, none, none⟩
  else if isParam params "sub" then ⟨ColumnQueryMode.sub, some (getParamString params "sub"), none⟩
  else ⟨ColumnQueryMode.all, none, none⟩

/-- Source `filterLow.getString().length()` with the default cvar stringifying
empty. -/
def cvarStrLen (v : Option String) : Nat := strLen (v.getD "")

/-- The `segments` parameter is present but holds no non-blank name
after the comma split (`rpc_query.cpp:1107`–`1130`). -/
def segmentsParamBad (params : List (String × String)) : Bool :=
  isParam params "segments" &&
    ((splitOnComma (getParamString params "segments")).filter
      (fun p => strLen (strTrim p) != 0)).isEmpty

/-- The mode/type switch of `rpc_query.cpp:1159`–`1197` as a
compatibility predicate: `all` and `eq` pass unconditionally; int and
double columns additionally pass the range modes; text columns pass
`rx` and `sub`; the `boolColumn` case of the switch is empty, so bool
columns pass everything. -/
def codeCompatible (t : ColumnType) (m : ColumnQueryMode) : Bool :=
  match m with
  | ColumnQueryMode.all => true
  | ColumnQueryMode.eq => true
  | _ =>
    match t with
    | ColumnType.intColumn | ColumnType.doubleColumn =>
      (match m with
       | ColumnQueryMode.between | ColumnQueryMode.gt | ColumnQueryMode.gte
       | ColumnQueryMode.lt | ColumnQueryMode.lte => true
       | _ => false)
    | ColumnType.textColumn =>
      (match m with
       | ColumnQueryMode.rx | ColumnQueryMode.sub => true
       | _ => false)
    | ColumnType.boolColumn => true
    | ColumnType.freeColumn => true

/-- The matrix of allowed modes as the spec states it (§4.7 step 2):
int/double allow all, eq, between, gt, gte, lt, lte; text allows all,
eq, rx, sub; bool allows only all and eq. -/
def specAllowedModes (t : ColumnType) (m : ColumnQueryMode) : Bool :=
  match t with
  | ColumnType.intColumn | ColumnType.doubleColumn =>
    (match m with
     | ColumnQueryMode.all | ColumnQueryMode.eq | ColumnQueryMode.between
     | ColumnQueryMode.gt | ColumnQueryMode.gte
     | ColumnQueryMode.lt | ColumnQueryMode.lte => true
     | _ => false)
  | ColumnType.textColumn =>
    (match m with
     | ColumnQueryMode.all | ColumnQueryMode.eq
     | ColumnQueryMode.rx | ColumnQueryMode.sub => true
     | _ => false)
  | ColumnType.boolColumn =>
    (match m with
     | ColumnQueryMode.all | ColumnQueryMode.eq => true
     | _ => false)
  | ColumnType.freeColumn => false

/-- What the endpoint does with a validated column query: reply an
error and stop, or go on to fork/dispatch work. -/
inductive ColumnOutcome
  | error (cls : ErrClass) (code : ErrCode) (msg : String)
  | dispatch (mode : ColumnQueryMode)
deriving DecidableEq, Repr

/-- The check chain of `RpcQuery::column` after the table/column
lookups, in source order (`rpc_query.cpp:1004`–`1197`): compile the
regex (`rxOk`); require a filter value for any mode but `all`; require
the `and` value for `between`; reject a blank `segments` list; run the
mode/type compatibility switch; then dispatch. -/
def columnChecks (t : ColumnType) (q : ColumnQueryInfo) (rxOk : Bool)
    (segsBad : Bool) : ColumnOutcome :=
  if q.mode = ColumnQueryMode.rx ∧ rxOk = false then
    ColumnOutcome.error ErrClass.query ErrCode.syntax_error
      "could not compile regular express"
  else if q.mode ≠ ColumnQueryMode.all ∧ cvarStrLen q.filterLow = 0 then
    ColumnOutcome.error ErrClass.query ErrCode.syntax_error
      "column filter requires a value"
  else if q.mode = ColumnQueryMode.between ∧ cvarStrLen q.filterHigh = 0 then
    ColumnOutcome.error ErrClass.query ErrCode.syntax_error
      "column query using between requires an and param"
  else if segsBad then
    ColumnOutcome.error ErrClass.query ErrCode.syntax_error
      "no segment names specified"
  else if codeCompatible t q.mode = false then
    match t with
    | ColumnType.intColumn | ColumnType.doubleColumn =>
      ColumnOutcome.error ErrClass.query ErrCode.syntax_error
        "specified filter type not compatible with integer or double column"
    | _ =>
      ColumnOutcome.error ErrClass.query ErrCode.syntax_error
        "specified filter type not compatible with string column"
  else ColumnOutcome.dispatch q.mode

/-- Source `RpcQuery::column` validation end to end: the free-column reject of
`rpc_query.cpp:985` followed by the check chain on the extracted
filter. -/
def columnValidate (t : ColumnType) (params : List (String × String))
    (rxOk : Bool) : ColumnOutcome :=
  if t = ColumnType.freeColumn then
    ColumnOutcome.error ErrClass.config ErrCode.general_config_error "column not found"
  else columnChecks t (columnModeOf params) rxOk (segmentsParamBad params)

/- ======================================================================
   Part 6 — inline variable extraction, `getInlineVaraibles`
   (`rpc_query.cpp:280`–`328`, claim C8).

   cvar conversions (`getInt64`, `getDouble`, `getBool`) are consumed
   interfaces; a produced parameter is a tagged raw value.
   ====================================================================== -/

/-- A typed inline parameter: the tag is the conversion the C++ applies
to the raw query-string value. -/
inductive PVal
  | vstr (raw : String)
  | vint (raw : String)
  | vdbl (raw : String)
  | vbool (raw : String)
deriving DecidableEq, Repr

/-- Source `paramVars[name] = value` on the C++ map: replace an existing
binding, else append. -/
def setVal : List (String × PVal) → String → PVal → List (String × PVal)
  | [], k, v => [(k, v)]
  | (k', v') :: rest, k, v =>
    if k' == k then (k', v) :: rest else (k', v') :: setVal rest k v

/-- Source `getInlineVaraibles` (`rpc_query.cpp:280`): for each query
parameter, the chain tests `p.first.find("str_") != npos`, then
`int_`, `dbl_`, `bool_` in that order — substring containment, not a
leading-run test — and names the parameter `trim(p.first.substr(4))`,
dropping the first four characters even for the five-character
`bool_`. -/
def inlineStep (acc : List (String × PVal)) (p : String × String) :
    List (String × PVal) :=
  if containsSub p.1 "str_" then
    let name := strTrim (strDrop p.1 4)
    if strLen name ≠ 0 then setVal acc name (PVal.vstr p.2) else acc
  else if containsSub p.1 "int_" then
    let name := strTrim (strDrop p.1 4)
    if strLen name ≠ 0 then setVal acc name (PVal.vint p.2) else acc
  else if containsSub p.1 "dbl_" then
    let name := strTrim (strDrop p.1 4)
    if strLen name ≠ 0 then setVal acc name (PVal.vdbl p.2) else acc
  else if containsSub p.1 "bool_" then
    let name := strTrim (strDrop p.1 4)
    if strLen name ≠ 0 then setVal acc name (PVal.vbool p.2) else acc
  else acc

def getInlineVaraibles (params : List (String × String)) :
    List (String × PVal) :=
  params.foldl inlineStep []

/-- The extractor as claim C8 words it: exactly the parameters whose
name begins with `str_`, `int_`, `dbl_` or `bool_` produce a typed
parameter named by the remainder after the prefix. -/
def specInlineVariables (params : List (String × String)) :
    List (String × PVal) :=
  params.foldl
    (fun acc p =>
      if beginsWith "str_".toList p.1.toList then
        setVal acc (strDrop p.1 4) (PVal.vstr p.2)
      else if beginsWith "int_".toList p.1.toList then
        setVal acc (strDrop p.1 4) (PVal.vint p.2)
      else if beginsWith "dbl_".toList p.1.toList then
        setVal acc (strDrop p.1 4) (PVal.vdbl p.2)
      else if beginsWith "bool_".toList p.1.toList then
        setVal acc (strDrop p.1 5) (PVal.vbool p.2)
      else acc)
    []

/-- Classifier behind the amended reading of claim C8: a name
containing `str_`/`int_`/`dbl_`/`bool_` (first match in that order)
maps to the trimmed remainder after its first four characters and the
matching value tag. -/
def classifyParam (name : String) : Option (String × (String → PVal)) :=
  if containsSub name "str_" then some (strTrim (strDrop name 4), PVal.vstr)
  else if containsSub name "int_" then some (strTrim (strDrop name 4), PVal.vint)
  else if containsSub name "dbl_" then some (strTrim (strDrop name 4), PVal.vdbl)
  else if containsSub name "bool_" then some (strTrim (strDrop name 4), PVal.vbool)
  else none

/-- One parameter's contribution under the amended reading. -/
def amendedStep (acc : List (String × PVal)) (p : String × String) :
    List (String × PVal) :=
  match classifyParam p.1 with
  | some nv => if strLen nv.1 ≠ 0 then setVal acc nv.1 (nv.2 p.2) else acc
  | none => acc

/-- The extractor as the amended claim words it, via `classifyParam`. -/
def amendedInlineVars (params : List (String × String)) :
    List (String × PVal) :=
  params.foldl amendedStep []

/- ======================================================================
   Part 7 — batch sub-query dispatch, `queryDispatch` and
   `RpcQuery::batch` (`rpc_query.cpp:1780`–`2060`, claims C6 and C10).
   ====================================================================== -/

/-- One section extracted from a batch script by
`QueryParser::extractSections` (consumed interface): its type tag,
name and code body. -/
structure SectionDef where
  sectionType : String
  sectionName : String
  code : String
deriving DecidableEq, Repr

/-- The `runMax` constant of `queryDispatch` (`rpc_query.cpp:1782`), commented
"maximum concurrent queries allowed". -/
def runMax : Nat := 4

/-- The `sendOne` recursion of `queryDispatch`
(`rpc_query.cpp:1810`–`1882`) on the schedule where no completion
callback lands while the chain runs (completions arrive from the HTTP
client asynchronously, so this schedule is realizable): each call
checks `running > runMax`, stops when the query list is exhausted,
otherwise increments `running`, dispatches, and recurses.  Returns the
final `running` count together with the trace of in-flight counts
observed right after each dispatch. -/
def sendChain : List SectionDef → Nat → Nat × List Nat
  | qs, running =>
    if running > runMax then (running, [])
    else
      match qs with
      | [] => (running, [])
      | _ :: rest =>
        let r := sendChain rest (running + 1)
        (r.1, (running + 1) :: r.2)

/-- A `DataBlock` of `Mapper::Responses` as the batch runner reads it. -/
structure DataBlock where
  data : Option String
  code : HStatus
deriving DecidableEq, Repr

/-- What `queryDispatch` hands back: the collected responses and the
`routeError` flag (set when `dispatchAsync` itself fails,
`rpc_query.cpp:1878`–`1879`). -/
structure DispatchResult where
  responses : List DataBlock
  routeError : Bool
deriving DecidableEq, Repr

/-- The response walk the batch runner performs after each dispatch
round (`rpc_query.cpp:1969`–`1991` and `2009`–`2031`): a non-OK
response with a body that starts with a brace and parses with an
`/error` node aborts with that body; any other non-OK response raises
the route-error flag, which is inspected only after the walk. -/
def batchScan (hasErrorPath : String → Bool) (routeErr : Bool) :
    List DataBlock → Except String Bool
  | [] => Except.ok routeErr
  | r :: rest =>
    match r.code with
    | HStatus.ok => batchScan hasErrorPath routeErr rest
    | HStatus.other =>
      match r.data with
      | some d =>
        if strLen d ≠ 0 ∧ startsWithBrace d then
          if hasErrorPath d then Except.error d
          else batchScan hasErrorPath true rest
        else batchScan hasErrorPath true rest
      | none => batchScan hasErrorPath true rest

/-- The detached batch runner thread (`rpc_query.cpp:1941`–`2058`),
taking the two `queryDispatch` results as inputs (the dispatch itself
is the network).  Sections are split into the `@segment` list and the
query list (`@use` sections join neither); the segment round runs
first and any failure replies and aborts; the query round then runs
and replies the collected array — but only when the query list is
non-empty.  Returns the list of replies sent on the client message. -/
def batchRunner (hasErrorPath : String → Bool) (subQueries : List SectionDef)
    (segResults qryResults : DispatchResult) : List Reply :=
  let segmentList := subQueries.filter (fun s => s.sectionType == "segment")
  let queryList := subQueries.filter
    (fun s => s.sectionType != "segment" && s.sectionType != "use")
  let segOutcome : Option (List Reply) :=
    if segmentList.isEmpty then none
    else
      match batchScan hasErrorPath segResults.routeError segResults.responses with
      | Except.error body => some [Reply.badRequest body]
      | Except.ok re =>
        if re then some [Reply.errorReply ErrClass.config ErrCode.route_error]
        else none
  match segOutcome with
  | some replies => replies
  | none =>
    if queryList.isEmpty then []
    else
      match batchScan hasErrorPath qryResults.routeError qryResults.responses with
      | Except.error body => [Reply.badRequest body]
      | Except.ok re =>
        if re then [Reply.errorReply ErrClass.config ErrCode.route_error]
        else [Reply.okReply]

/- ======================================================================
   Concrete inputs used by counterexamples and witnesses.
   ====================================================================== -/

/-- A running loop at `runAt = 100` whose `checkCondition` gate the
behaviour below fails. -/
def c3loop : OpenLoop := ⟨1, OloopState.running, 100, true, "t", none⟩

/-- A behaviour whose condition gate always fails; timer and run are
inert. -/
def c3beh : Behavior :=
  ⟨fun _ => false, fun w now => decide (w.runAt ≤ now),
   fun w => (w, []), fun w => (w, false, [])⟩

/-- Partition state holding only `c3loop`. -/
def c3st : AsyncLoopSt := ⟨0, 100, 0, 0, [], [c3loop]⟩

/-- A behaviour that runs every loop once, finishing it, and spawns one
fresh child (oid 50) from the run of loop 10. -/
def c4beh : Behavior :=
  ⟨fun _ => true, fun _ _ => true,
   fun w => (w, []),
   fun w => ({ w with state := OloopState.done }, false,
     if w.oid == 10 then [⟨50, OloopState.running, 0, false, "t", none⟩] else [])⟩

/-- Partition state with one active loop (oid 10) and one queued loop
(oid 20). -/
def c4st : AsyncLoopSt :=
  ⟨1, 100, 0, 0,
   [⟨20, OloopState.running, 0, true, "t", none⟩],
   [⟨10, OloopState.running, 0, true, "t", none⟩]⟩

/-- A fork environment that treats nothing as internode and parses
every body as carrying an `/error` node. -/
def envErr : ForkEnv := ⟨fun _ => false, fun _ => true⟩

/-- A fork environment that treats nothing as internode and no body as
carrying an `/error` node. -/
def envNoErr : ForkEnv := ⟨fun _ => false, fun _ => false⟩

/-- A null peer response (`r.data` null). -/
def emptyResp : FResponse := ⟨none, HStatus.ok⟩

/-- A non-OK peer response whose body is a JSON error object. -/
def errBodyResp : FResponse := ⟨some ⟨[openBrace]⟩, HStatus.other⟩

/-- A `@segment` batch section. -/
def segSection : SectionDef := ⟨"segment", "s1", "code"⟩

/-- An OK data block. -/
def okBlock : DataBlock := ⟨some "ok", HStatus.ok⟩

/-- Each iteration of the tick body considers exactly the loop it
visits. -/
theorem tickStep_considered (beh : Behavior) (nows : Nat → Int) (acc : TickAcc) (w : OpenLoop) :
    (tickStep beh nows acc w).considered = acc.considered ++ [w.oid] := by
  unfold tickStep
  dsimp only
  repeat' split
  all_goals rfl

/-- Each iteration of the tick body keeps `nextRun` equal to the
min-update fold over the run log. -/
theorem tickStep_nextRun_ranLog (beh : Behavior) (nows : Nat → Int) (acc : TickAcc)
    (w : OpenLoop) (nr0 : Int) (h : acc.nextRun = List.foldl minUpdate nr0 acc.ranLog) :
    (tickStep beh nows acc w).nextRun =
      List.foldl minUpdate nr0 (tickStep beh nows acc w).ranLog := by
  unfold tickStep
  dsimp only
  repeat' split
  all_goals simp only [List.foldl_append, List.foldl_cons, List.foldl_nil, ← h, minUpdate]
  all_goals split <;> first | rfl | tauto

/-- Each iteration of the tick body only adds spawned children that
come from the behaviour's `prepare` or `run`. -/
theorem tickStep_spawned (beh : Behavior) (nows : Nat → Int) (P : OpenLoop → Prop)
    (hbeh : ∀ u, (∀ c ∈ (beh.prepareFn u).2, P c) ∧ (∀ c ∈ (beh.runFn u).2.2, P c))
    (acc : TickAcc) (w : OpenLoop) (hacc : ∀ c ∈ acc.spawned, P c) :
    ∀ c ∈ (tickStep beh nows acc w).spawned, P c := by
  unfold tickStep
  dsimp only
  repeat' split
  all_goals intro c hc
  all_goals simp only [List.mem_append, List.not_mem_nil, or_false] at hc
  all_goals first
    | exact hacc c hc
    | (rcases hc with hc | hc
       <;> first | exact hacc c hc | exact (hbeh _).1 c hc | exact (hbeh _).2 c hc)
    | (rcases hc with (hc | hc) | hc
       <;> first | exact hacc c hc | exact (hbeh _).1 c hc | exact (hbeh _).2 c hc)

/-- The tick iteration considers exactly the ids of the admitted
snapshot, in order. -/
theorem foldl_tickStep_considered (beh : Behavior) (nows : Nat → Int) :
    ∀ (l : List OpenLoop) (acc : TickAcc),
    (List.foldl (tickStep beh nows) acc l).considered =
      acc.considered ++ l.map OpenLoop.oid := by
  intro l
  induction l with
  | nil => intro acc; simp
  | cons w t ih =>
    intro acc
    simp only [List.foldl_cons, List.map_cons]
    rw [ih, tickStep_considered]
    simp

/-- The tick iteration keeps `nextRun` equal to the min-update fold
over the run log. -/
theorem foldl_tickStep_nextRun (beh : Behavior) (nows : Nat → Int) (nr0 : Int) :
    ∀ (l : List OpenLoop) (acc : TickAcc),
    acc.nextRun = List.foldl minUpdate nr0 acc.ranLog →
    (List.foldl (tickStep beh nows) acc l).nextRun =
      List.foldl minUpdate nr0 (List.foldl (tickStep beh nows) acc l).ranLog := by
  intro l
  induction l with
  | nil => intro acc h; simpa using h
  | cons w t ih =>
    intro acc h
    simp only [List.foldl_cons]
    exact ih _ (tickStep_nextRun_ranLog beh nows acc w nr0 h)

/-- Children accumulated across the tick iteration all come from the
behaviour's spawn outputs. -/
theorem foldl_tickStep_spawned (beh : Behavior) (nows : Nat → Int) (P : OpenLoop → Prop)
    (hbeh : ∀ u, (∀ c ∈ (beh.prepareFn u).2, P c) ∧ (∀ c ∈ (beh.runFn u).2.2, P c)) :
    ∀ (l : List OpenLoop) (acc : TickAcc), (∀ c ∈ acc.spawned, P c) →
    ∀ c ∈ (List.foldl (tickStep beh nows) acc l).spawned, P c := by
  intro l
  induction l with
  | nil => intro acc hacc; exact hacc
  | cons w t ih =>
    intro acc hacc
    simp only [List.foldl_cons]
    exact ih _ (tickStep_spawned beh nows P hbeh acc w hacc)

/-- C3 (amended): on return from `AsyncLoop::run`, `nextRun` equals the
fold of the source's min-update rule over the initial value and the log
of executed `run()` calls — a loop contributes its `runAt` exactly when
it was actually run this tick, remained `running` afterwards, and its
`runAt` lies strictly after the `now` sampled for it; loops that were
retained without running contribute nothing. -/
theorem asyncloop_run_nextRun_log (beh : Behavior) (nows : Nat → Int)
    (st : AsyncLoopSt) (nr : Int) :
    (runTick beh nows st nr).nextRun =
      List.foldl minUpdate nr (runTick beh nows st nr).ranLog := by
  unfold runTick
  dsimp only
  repeat' split
  all_goals first
    | rfl
    | exact foldl_tickStep_nextRun beh nows nr _ _ rfl

/-- C3 counterexample: a partition holding one still-running loop with
`runAt = 100` whose `checkCondition` gate fails.  The tick returns
`nextRun = -1`, but the minimum `runAt` over the loops still running at
tick end is `100`, so `nextRun` is not that minimum as claim C3 states. -/
theorem asyncloop_nextRun_cx :
    (runTick c3beh (fun _ => 0) c3st (-1)).nextRun = -1 ∧
    stillRunningMinRunAt (runTick c3beh (fun _ => 0) c3st (-1)).st.active = 100 ∧
    ¬((-1 : Int) = 100) := by
  refine ⟨by decide, by decide, by decide⟩

/-- C4: in one `AsyncLoop::run` tick (with the `queueSize` counter in
sync with `queued`), the loop ids considered are exactly those of
`active` followed by those of `queued` at tick start, and any loop
spawned during the tick (all spawned ids being fresh) ends in `queued`
and is not among the considered ids, so it is not considered before the
next tick. -/
theorem asyncloop_tick_considers_admitted
    (beh : Behavior) (nows : Nat → Int) (st : AsyncLoopSt) (nr : Int)
    (hq : st.queueSize = st.queued.length)
    (hfresh : ∀ u,
      (∀ c ∈ (beh.prepareFn u).2, c.oid ∉ (st.active ++ st.queued).map OpenLoop.oid)
      ∧ (∀ c ∈ (beh.runFn u).2.2, c.oid ∉ (st.active ++ st.queued).map OpenLoop.oid)) :
    (runTick beh nows st nr).considered = (st.active ++ st.queued).map OpenLoop.oid
    ∧ ∀ c ∈ (runTick beh nows st nr).st.queued,
        c.oid ∉ (runTick beh nows st nr).considered := by
  have hmove : (if st.queueSize ≠ 0 then scheduleQueued st else st).active
                  = st.active ++ st.queued
              ∧ (if st.queueSize ≠ 0 then scheduleQueued st else st).queued = [] := by
    by_cases hz : st.queueSize = 0
    · have hnil : st.queued = [] := by
        have : st.queued.length = 0 := by rw [← hq, hz]
        exact List.eq_nil_of_length_eq_zero this
      simp [hz, hnil, scheduleQueued]
    · simp [hz, scheduleQueued]
  unfold runTick
  dsimp only
  by_cases hemp : (st.active ++ st.queued).isEmpty = true
  · have h1 : (if st.queueSize ≠ 0 then scheduleQueued st else st).active.isEmpty = true := by
      rw [hmove.1]; exact hemp
    rw [if_pos h1]
    dsimp only
    have hnil : st.active ++ st.queued = [] := by
      simpa using hemp
    constructor
    · simp [hnil]
    · intro c hc
      rw [hmove.2] at hc
      simp at hc
  · have h1 : ¬((if st.queueSize ≠ 0 then scheduleQueued st else st).active.isEmpty = true) := by
      rw [hmove.1]; exact hemp
    rw [if_neg h1]
    dsimp only
    have hcons : (List.foldl (tickStep beh nows)
        { idx := 0, runCount := 0, nextRun := nr, rerun := [], spawned := [],
          considered := [], ranLog := [] }
        (if st.queueSize ≠ 0 then scheduleQueued st else st).active).considered
        = (st.active ++ st.queued).map OpenLoop.oid := by
      rw [foldl_tickStep_considered, hmove.1]
      simp
    refine ⟨hcons, ?_⟩
    intro c hc
    rw [hmove.2] at hc
    simp only [List.nil_append] at hc
    rw [hcons]
    exact foldl_tickStep_spawned beh nows
      (fun c => c.oid ∉ (st.active ++ st.queued).map OpenLoop.oid) hfresh
      (if st.queueSize ≠ 0 then scheduleQueued st else st).active
      { idx := 0, runCount := 0, nextRun := nr, rerun := [], spawned := [],
        considered := [], ranLog := [] }
      (by simp) c hc

/-- C4 witness: the tick property instantiated on a partition with one
active loop (oid 10), one queued loop (oid 20), and a behaviour whose
run of loop 10 spawns a fresh child (oid 50). -/
theorem asyncloop_tick_considers_admitted_witness :
    (runTick c4beh (fun _ => 0) c4st 0).considered
      = (c4st.active ++ c4st.queued).map OpenLoop.oid
    ∧ ∀ c ∈ (runTick c4beh (fun _ => 0) c4st 0).st.queued,
        c.oid ∉ (runTick c4beh (fun _ => 0) c4st 0).considered := by
  refine asyncloop_tick_considers_admitted c4beh (fun _ => 0) c4st 0 (by decide) ?_
  intro u
  constructor
  · intro c hc
    simp [c4beh] at hc
  · intro c hc
    dsimp only [c4beh] at hc
    split at hc
    · simp only [List.mem_singleton] at hc
      subst hc
      decide
    · simp at hc

/-- The purge walk is an order-preserving filter whose trace deletes
exactly the loops of the named table. -/
theorem purgeWalk_eq (name : String) : ∀ l : List OpenLoop,
    purgeWalk name l =
      (l.filter (fun a => a.owningTable ≠ name),
       (l.filter (fun a => a.owningTable = name)).map
         (fun a => LoopEvent.deleted a.oid)) := by
  intro l
  induction l with
  | nil => rfl
  | cons a t ih =>
    simp only [purgeWalk, ih, List.filter_cons]
    by_cases h : a.owningTable = name
    · simp [h]
    · simp [h]

/-- C7: `purgeByTable` keeps in `active` and `queued` exactly the
loops whose `owningTable` differs from the dropped table, in their
original relative order; it deletes every loop of that table (active
walk first, then queued); and it never calls `partitionRemoved` on any
purged loop. -/
theorem purgeByTable_removes_only_named_table (st : AsyncLoopSt) (name : String) :
    (purgeByTable st name).1.active = st.active.filter (fun a => a.owningTable ≠ name)
    ∧ (purgeByTable st name).1.queued = st.queued.filter (fun a => a.owningTable ≠ name)
    ∧ (purgeByTable st name).2 =
        ((st.active.filter (fun a => a.owningTable = name)).map
          (fun a => LoopEvent.deleted a.oid))
        ++ ((st.queued.filter (fun a => a.owningTable = name)).map
          (fun a => LoopEvent.deleted a.oid))
    ∧ ∀ i, LoopEvent.partitionRemoved i ∉ (purgeByTable st name).2 := by
  unfold purgeByTable
  rw [purgeWalk_eq, purgeWalk_eq]
  refine ⟨rfl, rfl, rfl, ?_⟩
  intro i
  simp only [List.mem_append, List.mem_map]
  rintro (⟨a, _, ha⟩ | ⟨a, _, ha⟩) <;> exact LoopEvent.noConfusion ha

/-- C9: `queueCell` appends the cell — with its `assignedLoop` set to
this partition loop — to the tail of `queued` and increments
`queueSize`; it then sets the owning worker's `triggered` flag and
notifies that worker's condition variable; `active` and every other
field of the loop state and of the other workers are untouched. -/
theorem queueCell_effects (st : AsyncLoopSt) (pool : List WorkerInfo) (w : OpenLoop) :
    (queueCell st pool w).1.queued
      = st.queued ++ [{ w with assignedLoop := some st.partition }]
    ∧ (queueCell st pool w).1.queueSize = st.queueSize + 1
    ∧ (queueCell st pool w).1.active = st.active
    ∧ (queueCell st pool w).1.runTime = st.runTime
    ∧ (queueCell st pool w).1.partition = st.partition
    ∧ (queueCell st pool w).1.worker = st.worker
    ∧ (queueCell st pool w).2.1 = pool.set st.worker ⟨true⟩
    ∧ (∀ i, i ≠ st.worker → (queueCell st pool w).2.1[i]? = pool[i]?)
    ∧ (st.worker < pool.length → (queueCell st pool w).2.1[st.worker]? = some ⟨true⟩)
    ∧ (queueCell st pool w).2.2 = [LoopEvent.notify st.worker] := by
  refine ⟨rfl, rfl, rfl, rfl, rfl, rfl, rfl, ?_, ?_, rfl⟩
  · intro i hi
    exact List.getElem?_set_ne (fun h => hi h.symm)
  · intro hlt
    exact List.getElem?_set_eq_of_lt _ hlt

/-- C9 witness: `queueCell` on a two-worker pool (owning worker 0)
leaves worker 1 untouched and sets worker 0's `triggered` flag. -/
theorem queueCell_effects_witness :
    (queueCell c3st [⟨false⟩, ⟨false⟩] c3loop).2.1[1]? = [(⟨false⟩ : WorkerInfo), ⟨false⟩][1]?
    ∧ (queueCell c3st [⟨false⟩, ⟨false⟩] c3loop).2.1[0]? = some ⟨true⟩ := by
  refine ⟨(queueCell_effects c3st [⟨false⟩, ⟨false⟩] c3loop).2.2.2.2.2.2.2.1 1 (by decide),
          (queueCell_effects c3st [⟨false⟩, ⟨false⟩] c3loop).2.2.2.2.2.2.2.2.1 (by decide)⟩

/-- C1 evaluation at the failing input: with an error-carrying partial
response, the `event` and `column` Shuttle callbacks reply 4xx, free
the worker ResultSets and invoke `release` once, but the `segment`
callback replies 4xx and frees the ResultSets without ever invoking
`release` (`rpc_query.cpp:882`–`894`), leaking the Shuttle. -/
theorem shuttle_release_on_error_eval :
    (eventCallback 2 [⟨some "err"⟩]).released = 1
    ∧ (columnCallback 2 [⟨some "err"⟩]).released = 1
    ∧ (segmentCallback 2 [⟨some "err"⟩]).released = 0
    ∧ (segmentCallback 2 [⟨some "err"⟩]).replies = [Reply.badRequest "err"]
    ∧ (segmentCallback 2 [⟨some "err"⟩]).freedResultSets = 2 := by
  decide

/-- Stepping `forkQuery` over a response that is not internode, not
empty, and not OK aborts at once with the relayed 4xx or the
`route_error` reply, freeing the ResultSets collected so far. -/
theorem forkStep_bad (env : ForkEnv) (acc : ForkAcc) (r : FResponse)
    (h1 : badResp env r = true) (h3 : acc.routeError = false) :
    forkStep env acc r =
      Except.error (ForkOutcome.aborted
        (acc.replies ++ [abortReply env r]) acc.rsCount) := by
  obtain ⟨rc, re, rp⟩ := acc
  simp only at h3
  subst h3
  obtain ⟨d, cd⟩ := r
  simp only [badResp, Bool.and_eq_true, Bool.not_eq_true'] at h1
  obtain ⟨⟨hint, hemp⟩, hcode⟩ := h1
  cases cd
  · simp at hcode
  · cases d with
    | none => simp [isEmptyResp] at hemp
    | some s =>
      unfold forkStep abortReply
      rw [hint]
      simp only [Bool.false_eq_true, if_false, hemp, if_false]
      rw [if_pos (by simp)]
      by_cases hbr : startsWithBrace s = true
      · by_cases herr : env.hasErrorPath s = true
        · simp [hbr, herr]
        · simp only [Bool.not_eq_true] at herr
          simp [hbr, herr]
      · simp only [Bool.not_eq_true] at hbr
        simp [hbr]

/-- Stepping `forkQuery` over a response that is not an abort driver
continues with the route-error flag still down. -/
theorem forkStep_ok_of_not_bad (env : ForkEnv) (acc : ForkAcc) (r : FResponse)
    (h1 : badResp env r = false) (h3 : acc.routeError = false) :
    ∃ a, forkStep env acc r = Except.ok a ∧ a.routeError = false := by
  obtain ⟨rc, re, rp⟩ := acc
  simp only at h3
  subst h3
  unfold forkStep
  by_cases hint : env.isInternode r = true
  · refine ⟨⟨rc + 1, false, rp⟩, ?_, rfl⟩
    simp [hint]
  · simp only [Bool.not_eq_true] at hint
    by_cases hemp : isEmptyResp r = true
    · refine ⟨⟨rc, false,
        rp ++ [Reply.errorReply ErrClass.internode ErrCode.internode_error]⟩, ?_, rfl⟩
      simp [hint, hemp]
    · simp only [Bool.not_eq_true] at hemp
      cases hcd : r.code
      · refine ⟨⟨rc, false, rp⟩, ?_, rfl⟩
        simp [hint, hemp, hcd]
      · exfalso
        simp [badResp, hint, hemp, hcd] at h1

/-- Stepping `forkQuery` over a non-empty response that is not an
abort driver continues without sending any reply. -/
theorem forkStep_ok_nb_ne (env : ForkEnv) (acc : ForkAcc) (r : FResponse)
    (h1 : badResp env r = false) (h2 : isEmptyResp r = false)
    (h3 : acc.routeError = false) :
    ∃ n, forkStep env acc r = Except.ok ⟨n, false, acc.replies⟩ := by
  obtain ⟨rc, re, rp⟩ := acc
  simp only at h3
  subst h3
  unfold forkStep
  by_cases hint : env.isInternode r = true
  · refine ⟨rc + 1, ?_⟩
    simp [hint]
  · simp only [Bool.not_eq_true] at hint
    cases hcd : r.code
    · refine ⟨rc, ?_⟩
      simp [hint, h2, hcd]
    · exfalso
      simp [badResp, hint, h2, hcd] at h1

/-- Walking responses none of which is empty: the walk aborts with one
reply determined by the first bad response, or completes with no reply
when there is none. -/
theorem forkCollectGo_noEmpty (env : ForkEnv) : ∀ (rs : List FResponse) (acc : ForkAcc),
    (∀ r ∈ rs, isEmptyResp r = false) → acc.routeError = false →
    (match rs.find? (badResp env) with
     | some r => ∃ k, forkCollectGo env rs acc
         = ForkOutcome.aborted (acc.replies ++ [abortReply env r]) k
     | none => ∃ n, forkCollectGo env rs acc
         = ForkOutcome.completed acc.replies n n) := by
  intro rs
  induction rs with
  | nil =>
    intro acc hne h3
    exact ⟨acc.rsCount, rfl⟩
  | cons r rest ih =>
    intro acc hne h3
    cases hbad : badResp env r with
    | true =>
      rw [List.find?_cons_of_pos _ hbad]
      refine ⟨acc.rsCount, ?_⟩
      unfold forkCollectGo
      rw [forkStep_bad env acc r hbad h3]
    | false =>
      rw [List.find?_cons_of_neg _ (by simp [hbad])]
      obtain ⟨n, hstep⟩ := forkStep_ok_nb_ne env acc r hbad
        (hne r (List.mem_cons_self _ _)) h3
      have hrec := ih ⟨n, false, acc.replies⟩
        (fun x hx => hne x (List.mem_cons_of_mem _ hx)) rfl
      unfold forkCollectGo
      rw [hstep]
      exact hrec

/-- Walking responses none of which is an abort driver always
completes (empty responses only add `internode_error` replies), and the
completed outcome frees exactly the collected ResultSets. -/
theorem forkCollectGo_noBad (env : ForkEnv) : ∀ (rs : List FResponse) (acc : ForkAcc),
    (∀ r ∈ rs, badResp env r = false) → acc.routeError = false →
    ∃ reps n, forkCollectGo env rs acc = ForkOutcome.completed reps n n := by
  intro rs
  induction rs with
  | nil =>
    intro acc hnb h3
    exact ⟨acc.replies, acc.rsCount, rfl⟩
  | cons r rest ih =>
    intro acc hnb h3
    obtain ⟨a, hstep, hre⟩ := forkStep_ok_of_not_bad env acc r
      (hnb r (List.mem_cons_self _ _)) h3
    obtain ⟨reps, n, hrec⟩ := ih a (fun x hx => hnb x (List.mem_cons_of_mem _ hx)) hre
    refine ⟨reps, n, ?_⟩
    unfold forkCollectGo
    rw [hstep]
    exact hrec

/-- C2 counterexample: on a single empty peer response, `forkQuery`
replies `internode/internode_error` and completes — returning a
non-null result that its caller answers with a success reply — instead
of replying `config/route_error` and returning null as claim C2
states. -/
theorem forkQuery_empty_reply_cx :
    forkCollect envNoErr [emptyResp]
      = ForkOutcome.completed
          [Reply.errorReply ErrClass.internode ErrCode.internode_error] 0 0
    ∧ forkCollect envNoErr [emptyResp]
      ≠ ForkOutcome.aborted [Reply.errorReply ErrClass.config ErrCode.route_error] 0 := by
  decide

/-- C2 (amended): when no response is empty, `forkQuery` aborts with
exactly one reply at the first bad (non-internode, non-OK) response —
the relayed 4xx if its body parses with an `/error` node, the retriable
`config/route_error` otherwise — returning null with all collected
ResultSets freed, and completes with no reply when there is no bad
response; an empty response, however, only adds an
`internode/internode_error` reply and never aborts the walk. -/
theorem forkQuery_error_paths (env : ForkEnv) (rs : List FResponse) :
    ((∀ r ∈ rs, isEmptyResp r = false) →
      (match rs.find? (badResp env) with
       | some r => ∃ k, forkCollect env rs = ForkOutcome.aborted [abortReply env r] k
       | none => ∃ n, forkCollect env rs = ForkOutcome.completed [] n n))
    ∧ ((∀ r ∈ rs, badResp env r = false) →
      ∃ reps n, forkCollect env rs = ForkOutcome.completed reps n n) := by
  constructor
  · intro hne
    exact forkCollectGo_noEmpty env rs ⟨0, false, []⟩ hne rfl
  · intro hnb
    exact forkCollectGo_noBad env rs ⟨0, false, []⟩ hnb rfl

/-- C2 witness: the amended property instantiated on a one-response
list with an embedded JSON error (abort path) and on a one-response
list with an empty reply (non-abort path). -/
theorem forkQuery_error_paths_witness :
    (∃ k, forkCollect envErr [errBodyResp]
       = ForkOutcome.aborted [abortReply envErr errBodyResp] k)
    ∧ (∃ reps n, forkCollect envNoErr [emptyResp]
       = ForkOutcome.completed reps n n) :=
  ⟨(forkQuery_error_paths envErr [errBodyResp]).1 (by decide),
   (forkQuery_error_paths envNoErr [emptyResp]).2 (by decide)⟩

/-- The per-parameter step of `getInlineVaraibles` agrees with the
amended classifier step. -/
theorem inlineStep_eq_amendedStep (acc : List (String × PVal)) (p : String × String) :
    inlineStep acc p = amendedStep acc p := by
  by_cases h1 : containsSub p.1 "str_" = true
  · simp [inlineStep, amendedStep, classifyParam, h1]
  · by_cases h2 : containsSub p.1 "int_" = true
    · simp [inlineStep, amendedStep, classifyParam, h1, h2]
    · by_cases h3 : containsSub p.1 "dbl_" = true
      · simp [inlineStep, amendedStep, classifyParam, h1, h2, h3]
      · by_cases h4 : containsSub p.1 "bool_" = true
        · simp [inlineStep, amendedStep, classifyParam, h1, h2, h3, h4]
        · simp [inlineStep, amendedStep, classifyParam, h1, h2, h3, h4]

/-- C8 (amended): `getInlineVaraibles` produces a typed parameter for
exactly those query parameters whose name contains `str_`, `int_`,
`dbl_` or `bool_` as a substring (first match in that order), naming it
by the trimmed name minus its first four characters when that is
non-blank — so `bool_` parameters keep a leading underscore — with the
string/int64/double/bool conversion of the matching tag. -/
theorem getInlineVaraibles_eq_amended (params : List (String × String)) :
    getInlineVaraibles params = amendedInlineVars params := by
  unfold getInlineVaraibles amendedInlineVars
  suffices h : ∀ acc, List.foldl inlineStep acc params = List.foldl amendedStep acc params
    from h []
  induction params with
  | nil => intro acc; rfl
  | cons p t ih =>
    intro acc
    simp only [List.foldl_cons, inlineStep_eq_amendedStep]
    exact ih _

/-- C8 counterexample: `bool_flag` yields a parameter named `_flag`
(the code drops four characters, not the five of `bool_`), and
`xstr_y` — whose name does not begin with any prefix — still yields a
parameter, because the code tests substring containment; both
contradict claim C8's prefix reading. -/
theorem inline_vars_cx :
    getInlineVaraibles [("bool_flag", "true")] = [("_flag", PVal.vbool "true")]
    ∧ specInlineVariables [("bool_flag", "true")] = [("flag", PVal.vbool "true")]
    ∧ getInlineVaraibles [("xstr_y", "v")] = [("_y", PVal.vstr "v")]
    ∧ specInlineVariables [("xstr_y", "v")] = []
    ∧ getInlineVaraibles [("bool_flag", "true")]
        ≠ specInlineVariables [("bool_flag", "true")] := by
  decide

/-- C5 counterexample: a `gt` filter on a bool column — outside the
claimed matrix — is dispatched with no error at all, and an
incompatible `sub` filter on an int column is rejected with error class
`query`, not `parse` as claim C5 states. -/
theorem column_matrix_cx :
    columnValidate ColumnType.boolColumn [("gt", "1")] true
      = ColumnOutcome.dispatch ColumnQueryMode.gt
    ∧ specAllowedModes ColumnType.boolColumn ColumnQueryMode.gt = false
    ∧ columnValidate ColumnType.intColumn [("sub", "x")] true
      = ColumnOutcome.error ErrClass.query ErrCode.syntax_error
          "specified filter type not compatible with integer or double column"
    ∧ ErrClass.query ≠ ErrClass.parse := by
  decide

/-- The column check chain dispatches only filter modes its
compatibility switch accepts. -/
theorem columnChecks_dispatch_compatible (t : ColumnType) (q : ColumnQueryInfo)
    (rxOk segsBad : Bool) (m : ColumnQueryMode)
    (h : columnChecks t q rxOk segsBad = ColumnOutcome.dispatch m) :
    codeCompatible t m = true := by
  unfold columnChecks at h
  repeat' split at h
  all_goals try exact ColumnOutcome.noConfusion h
  injection h with h1
  subst h1
  rename_i hcomp
  simpa using hcomp

/-- When the compatibility switch rejects the extracted mode, the
check chain yields a `query/syntax_error` reply (with one of the chain's
messages) and never dispatches. -/
theorem columnChecks_incompatible_syntax_error (t : ColumnType) (q : ColumnQueryInfo)
    (rxOk segsBad : Bool) (hcomp : codeCompatible t q.mode = false) :
    ∃ msg, columnChecks t q rxOk segsBad
      = ColumnOutcome.error ErrClass.query ErrCode.syntax_error msg := by
  unfold columnChecks
  repeat' split
  all_goals exact ⟨_, rfl⟩

/-- C5 (amended): the column endpoint dispatches work only for filter
modes its mode/type switch accepts (int/double: all, eq, between, gt,
gte, lt, lte; text: all, eq, rx, sub; bool: every mode, since the
switch's bool case is empty), and whenever the extracted mode is
incompatible under that switch the endpoint replies 4xx with class
`query`, code `syntax_error`, dispatching nothing. -/
theorem column_mode_type_check (t : ColumnType) (params : List (String × String))
    (rxOk : Bool) :
    (∀ m, columnValidate t params rxOk = ColumnOutcome.dispatch m →
      codeCompatible t m = true)
    ∧ (codeCompatible t (columnModeOf params).mode = false →
      ∃ msg, columnValidate t params rxOk
        = ColumnOutcome.error ErrClass.query ErrCode.syntax_error msg) := by
  constructor
  · intro m h
    unfold columnValidate at h
    split at h
    · exact ColumnOutcome.noConfusion h
    · exact columnChecks_dispatch_compatible t (columnModeOf params) rxOk
        (segmentsParamBad params) m h
  · intro hcomp
    unfold columnValidate
    split
    · exfalso
      rename_i hfree
      subst hfree
      cases hm : (columnModeOf params).mode <;>
        rw [hm] at hcomp <;> simp [codeCompatible] at hcomp
    · exact columnChecks_incompatible_syntax_error t (columnModeOf params) rxOk
        (segmentsParamBad params) hcomp

/-- C5 witness: the amended property instantiated on a `sub` filter
over an int column (rejected, `query/syntax_error`) and a `gt` filter
over a bool column (accepted by the code's switch). -/
theorem column_mode_type_check_witness :
    (∃ msg, columnValidate ColumnType.intColumn [("sub", "x")] true
      = ColumnOutcome.error ErrClass.query ErrCode.syntax_error msg)
    ∧ codeCompatible ColumnType.boolColumn ColumnQueryMode.gt = true :=
  ⟨(column_mode_type_check ColumnType.intColumn [("sub", "x")] true).2 (by decide),
   (column_mode_type_check ColumnType.boolColumn [("gt", "1")] true).1
     ColumnQueryMode.gt (by decide)⟩

/-- C6 evaluation at the failing input: dispatching five batch
sections with no completion landing during the send chain drives the
in-flight count through 1,2,3,4,5 — the `running > runMax` guard lets a
fifth sub-query through, exceeding the documented cap of 4. -/
theorem queryDispatch_inflight_eval :
    (sendChain (List.replicate 5 segSection) 0).2 = [1, 2, 3, 4, 5]
    ∧ 5 ∈ (sendChain (List.replicate 5 segSection) 0).2
    ∧ runMax < 5 := by
  decide

/-- Scanning all-OK dispatch responses leaves the route-error flag
as it was and aborts nothing. -/
theorem batchScan_all_ok (hep : String → Bool) :
    ∀ (l : List DataBlock) (re : Bool),
    (∀ r ∈ l, r.code = HStatus.ok) → batchScan hep re l = Except.ok re := by
  intro l
  induction l with
  | nil => intro re h; rfl
  | cons r t ih =>
    intro re h
    have hr := h r (List.mem_cons_self _ _)
    unfold batchScan
    rw [hr]
    exact ih re (fun x hx => h x (List.mem_cons_of_mem _ hx))

/-- C10: a batch whose sections are all `@segment` (or `@use`) — so
the query-section list is empty — sends no reply at all when the
segment round succeeds: the success reply under key `_` is produced
only when the query list is non-empty. -/
theorem batch_segment_only_no_reply (hep : String → Bool)
    (subQueries : List SectionDef) (segResults qryResults : DispatchResult)
    (hseg : subQueries.filter (fun s => s.sectionType == "segment") ≠ [])
    (hqry : subQueries.filter
      (fun s => s.sectionType != "segment" && s.sectionType != "use") = [])
    (hre : segResults.routeError = false)
    (hok : ∀ r ∈ segResults.responses, r.code = HStatus.ok) :
    batchRunner hep subQueries segResults qryResults = [] := by
  have h1 : (subQueries.filter (fun s => s.sectionType == "segment")).isEmpty = false := by
    cases hfl : subQueries.filter (fun s => s.sectionType == "segment") with
    | nil => exact absurd hfl hseg
    | cons a t => rfl
  unfold batchRunner
  simp [h1, hre, batchScan_all_ok hep segResults.responses false hok, hqry]

/-- C10 witness: a one-`@segment` batch whose dispatch returned a
single OK response sends no reply. -/
theorem batch_segment_only_no_reply_witness :
    batchRunner (fun _ => true) [segSection] ⟨[okBlock], false⟩ ⟨[], false⟩ = [] :=
  batch_segment_only_no_reply (fun _ => true) [segSection] ⟨[okBlock], false⟩ ⟨[], false⟩
    (by decide) (by decide) (by decide) (by decide)
